import Mathlib

/-!
# Verification of the dask-sql `Context` orchestrator

A shallow embedding of `src/dask_sql/context.py` (the `Context` class: table
and function registries, schema preparation, and the `sql` query entry point),
together with models of the external collaborators it uses.  Components that
live outside the given source (the Calcite java bridge, the data containers,
the type mapping) are modelled from the specification and marked as such in
their doc comments.
-/

/-- A Python `dict` modelled as an association list in insertion order.
`dictInsert d k v` is `d[k] = v`: it overwrites the value at an existing key
in place (Python dicts keep the original insertion position) or appends a new
binding at the end. -/
def dictInsert {α β : Type} [DecidableEq α] : List (α × β) → α → β → List (α × β)
  | [], k, v => [(k, v)]
  | (k', v') :: rest, k, v =>
    if k' = k then (k, v) :: rest else (k', v') :: dictInsert rest k v

/-- Lookup in a Python dict: the value stored under key `k`, if any. -/
def dictGet {α β : Type} [DecidableEq α] (d : List (α × β)) (k : α) : Option β :=
  match d with
  | [] => none
  | (k', v') :: rest => if k' = k then some v' else dictGet rest k

/-- Modelled from the spec: the engine's native (python/numpy) column types,
covering integer widths, floating point, boolean, string, date/time, and an
`object` catch-all with no SQL equivalent.  The concrete mapping lives in
`dask_sql/mappings.py`, which is not part of the given source. -/
inductive PyType
  | int64
  | float64
  | boolean
  | string
  | datetime64
  | objectAny
  deriving DecidableEq, Repr

/-- Modelled from the spec: the SQL types used by the external parser. -/
inductive SqlType
  | BIGINT
  | DOUBLE
  | BOOLEAN
  | VARCHAR
  | TIMESTAMP
  deriving DecidableEq, Repr

/-- Modelled from the spec: raised when a native type has no SQL equivalent. -/
structure TypeMappingError where
  ty : PyType
  deriving DecidableEq, Repr

/-- Modelled from the spec: `python_to_sql_type` from `dask_sql/mappings.py`
(not part of the given source).  Deterministic and total over mappable types;
fails with a `TypeMappingError` when no mapping exists. -/
def python_to_sql_type : PyType → Except TypeMappingError SqlType
  | .int64 => .ok .BIGINT
  | .float64 => .ok .DOUBLE
  | .boolean => .ok .BOOLEAN
  | .string => .ok .VARCHAR
  | .datetime64 => .ok .TIMESTAMP
  | .objectAny => .error ⟨.objectAny⟩

/-- One physical dataframe column: label, dtype, and data. -/
structure Column where
  name : String
  dtype : PyType
  data : List Int
  deriving DecidableEq, Repr

/-- A dask dataframe, modelled as its ordered list of columns. -/
structure DataFrame where
  cols : List Column
  deriving DecidableEq, Repr

/-- The `df.columns` property: the ordered column labels. -/
def DataFrame.columns (df : DataFrame) : List String :=
  df.cols.map Column.name

/-- A reference to a dataframe object on the Python heap.  Dataframe values
are heap cells so that `df.copy()` (allocation of a fresh cell) and in-place
mutation of the caller's object are both expressible. -/
abbrev Ref := Nat

/-- The Python heap of dataframe objects: a store of allocated cells plus the
next fresh address. -/
structure Heap where
  store : List (Ref × DataFrame)
  next : Ref
  deriving DecidableEq, Repr

/-- Dereference: the dataframe held in cell `r` (junk if unallocated). -/
def Heap.get (h : Heap) (r : Ref) : DataFrame :=
  (dictGet h.store r).getD ⟨[]⟩

/-- Allocate a fresh cell holding `v`; returns the new heap and the address. -/
def Heap.alloc (h : Heap) (v : DataFrame) : Heap × Ref :=
  (⟨dictInsert h.store h.next v, h.next + 1⟩, h.next)

/-- In-place mutation of the object in cell `r`. -/
def Heap.write (h : Heap) (r : Ref) (v : DataFrame) : Heap :=
  ⟨dictInsert h.store r v, h.next⟩

/-- A heap is well formed when every allocated address is below `next`. -/
def Heap.wf (h : Heap) : Prop :=
  ∀ r ∈ h.store.map Prod.fst, r < h.next

/-- Modelled from the spec: the Column Container of `dask_sql/datacontainer.py`
(not part of the given source) — an ordered, name-unique mapping from Logical
Column Name to Physical Column Label. -/
structure ColumnContainer where
  cols : List (String × String)
  deriving DecidableEq, Repr

/-- The `cc.columns` property: the ordered Logical Column Names. -/
def ColumnContainer.columns (cc : ColumnContainer) : List String :=
  cc.cols.map Prod.fst

/-- Modelled from the spec: `ColumnContainer(df.columns)` — a fresh container
in which each Logical Name initially coincides with its Physical Label. -/
def ColumnContainer.ofColumns (names : List String) : ColumnContainer :=
  ⟨names.map fun n => (n, n)⟩

/-- Modelled from the spec: `cc.rename(mapping)` returns a new container with
the same Physical Labels but Logical Names substituted per `mapping`; any
Logical Name not present in `mapping` is kept unchanged.  Pure. -/
def ColumnContainer.rename (cc : ColumnContainer) (m : List (String × String)) :
    ColumnContainer :=
  ⟨cc.cols.map fun lp => ((dictGet m lp.1).getD lp.1, lp.2)⟩

/-- Modelled from the spec: the Data Container — a physical dataframe (here a
heap reference, as in Python the registry aliases an object) paired with a
Column Container. -/
structure DataContainer where
  df : Ref
  column_container : ColumnContainer
  deriving DecidableEq, Repr

/-- Modelled from the spec: raised by `assign` when a Logical Name maps to a
Physical Label absent from the paired dataframe. -/
structure SchemaError where
  logical : String
  physical : String
  deriving DecidableEq, Repr

/-- Modelled from the spec: `dc.assign()` materializes a dataframe whose
physical columns are relabeled to the current Logical Names, in the declared
output order; fails with a `SchemaError` on a dangling Physical Label. -/
def DataContainer.assign (dc : DataContainer) (h : Heap) :
    Except SchemaError DataFrame :=
  let df := h.get dc.df
  (dc.column_container.cols.mapM
    (fun lp : String × String =>
      match df.cols.find? (fun c : Column => c.name = lp.2) with
      | some c => (.ok { c with name := lp.1 } : Except SchemaError Column)
      | none => .error ⟨lp.1, lp.2⟩)).map DataFrame.mk

/-- The `FunctionDescription` namedtuple from the source: callable (an opaque handle),
ordered parameter list, return type, is-aggregation flag. -/
structure FunctionDescription where
  f : Nat
  parameters : List (String × PyType)
  return_type : PyType
  aggregation : Bool
  deriving DecidableEq, Repr

/-- The `Context` state: the three registries created in `__init__`
(`self.tables`, `self.functions`, `self.aggregations`). -/
structure Context where
  tables : List (String × DataContainer)
  functions : List (String × FunctionDescription)
  aggregations : List (String × FunctionDescription)
  deriving DecidableEq, Repr

/-- Python's `str.lower()`: character-wise case folding.  Modelled
structurally (so that it evaluates by kernel reduction) rather than through
`String.toLower`, which is definitionally opaque. -/
def pyLower (s : String) : String :=
  ⟨s.data.map Char.toLower⟩

/-- In `Context.__init__`, all three registries start empty. -/
def Context.init : Context :=
  ⟨[], [], []⟩

/-- The method `Context.register_dask_table(df, name)`:
`self.tables[name.lower()] = DataContainer(df.copy(), ColumnContainer(df.columns))`.
The copy allocates a fresh heap cell holding the current value of `r`. -/
def Context.register_dask_table (st : Context) (h : Heap) (r : Ref)
    (name : String) : Context × Heap :=
  let copied := h.alloc (h.get r)
  ({ st with
      tables := dictInsert st.tables (pyLower name)
        ⟨copied.2, ColumnContainer.ofColumns (h.get r).columns⟩ },
    copied.1)

/-- The method `Context.register_function(f, name, parameters, return_type)`:
`self.functions[name.lower()] = FunctionDescription(f, parameters, return_type, False)`. -/
def Context.register_function (st : Context) (f : Nat) (name : String)
    (parameters : List (String × PyType)) (return_type : PyType) : Context :=
  { st with
      functions := dictInsert st.functions (pyLower name)
        ⟨f, parameters, return_type, false⟩ }

/-- The method `Context.register_aggregation(f, name, parameters, return_type)`:
`self.functions[name.lower()] = FunctionDescription(f, parameters, return_type, True)`. -/
def Context.register_aggregation (st : Context) (f : Nat) (name : String)
    (parameters : List (String × PyType)) (return_type : PyType) : Context :=
  { st with
      functions := dictInsert st.functions (pyLower name)
        ⟨f, parameters, return_type, true⟩ }

/-- A table entry of the prepared schema (`DaskTable` with its added
columns): the table name and its ordered (column, sql type) pairs. -/
structure DaskTableRepr where
  name : String
  columns : List (String × SqlType)
  deriving DecidableEq, Repr

/-- A function entry of the prepared schema (`DaskScalarFunction` or
`DaskAggregateFunction` with its added parameters). -/
structure DaskFunctionRepr where
  name : String
  returnType : SqlType
  parameters : List (String × SqlType)
  isAggregate : Bool
  deriving DecidableEq, Repr

/-- The schema handed to the external parser (`DaskSchema("schema")` filled
with tables and functions). -/
structure DaskSchema where
  name : String
  tables : List DaskTableRepr
  functions : List DaskFunctionRepr
  deriving DecidableEq, Repr

/-- The static helper `Context._add_parameters_from_description`: convert each parameter type
and add the (name, sql type) pairs in order. -/
def Context.add_parameters_from_description
    (parameters : List (String × PyType)) :
    Except TypeMappingError (List (String × SqlType)) :=
  parameters.mapM fun p => do
    let sql_param_type ← python_to_sql_type p.2
    pure (p.1, sql_param_type)

/-- The body of `_prepare_schema`'s table loop for one registry entry:
`DaskTable(name)` plus `addColumn(column, python_to_sql_type(dtype))` for
every column of the entry's dataframe. -/
def tableRepr (h : Heap) (nt : String × DataContainer) :
    Except TypeMappingError DaskTableRepr := do
  let df := h.get nt.2.df
  let columns ← df.cols.mapM fun c => do
    let sql_data_type ← python_to_sql_type c.dtype
    pure (c.name, sql_data_type)
  pure ⟨nt.1, columns⟩

/-- The body of `_prepare_schema`'s function loop for one registry entry:
convert the return type, pick `DaskAggregateFunction` or `DaskScalarFunction`
per the flag, and add the converted parameters. -/
def functionRepr (nf : String × FunctionDescription) :
    Except TypeMappingError DaskFunctionRepr := do
  let sql_return_type ← python_to_sql_type nf.2.return_type
  let params ← Context.add_parameters_from_description nf.2.parameters
  pure ⟨nf.1, sql_return_type, params, nf.2.aggregation⟩

/-- The method `Context._prepare_schema`: build a `DaskSchema` from the current tables
(each contributing its name and every column with its mapped SQL type) and
functions (each contributing name, return type, parameters, and scalar vs.
aggregate per its flag).  A type with no SQL mapping raises here. -/
def Context.prepare_schema (st : Context) (h : Heap) :
    Except TypeMappingError DaskSchema := do
  let tables ← st.tables.mapM (tableRepr h)
  let functions ← st.functions.mapM functionRepr
  pure ⟨"schema", tables, functions⟩

/-- Modelled from the spec: a parse failure (`SqlParseException`) or a
validation failure (`ValidationException`) of the external component, each
carrying a human-readable message. -/
inductive ExternalError
  | sqlParse (msg : String)
  | validation (msg : String)
  deriving DecidableEq, Repr

/-- The accessor `e.message()`: the human-readable message of an external error. -/
def ExternalError.message : ExternalError → String
  | .sqlParse m => m
  | .validation m => m

/-- Modelled from the spec: a parsed top-level SQL node of the external
component; it exposes its java class name and, for a `SELECT`, the ordered
user-intended output names of the projection list (already rendered as
strings under the default dialect). -/
structure SqlNode where
  javaClass : String
  selectList : List String
  deriving DecidableEq, Repr

/-- Modelled from the spec: `get_java_class` of `dask_sql/java.py`. -/
def get_java_class (n : SqlNode) : String :=
  n.javaClass

/-- An optimized relational-algebra plan node, opaque to the orchestrator. -/
structure RelNode where
  id : Nat
  deriving DecidableEq, Repr

/-- Modelled from the spec: the `RelationalAlgebraGenerator` built from a
schema — the external parse → validate → convert → optimize pipeline, of
which the orchestrator only sees these four calls. -/
structure Generator where
  getSqlNode : String → Except ExternalError SqlNode
  getValidatedNode : SqlNode → Except ExternalError SqlNode
  getRelationalAlgebra : SqlNode → RelNode
  getOptimizedRelationalAlgebra : RelNode → RelNode

/-- The user-facing `ParsingException(sql, message)` of `dask_sql/utils.py`
(modelled from the spec), together with its chained cause (`raise ... from`). -/
structure ParsingException where
  sql : String
  message : String
  cause : Option ExternalError
  deriving DecidableEq, Repr

/-- An error escaping `_get_ral`: either a type-mapping failure from schema
building or a parse/validation failure from the external component. -/
inductive GetRalError
  | typeMapping (e : TypeMappingError)
  | external (e : ExternalError)
  deriving DecidableEq, Repr

/-- Observable steps of a `sql()` call, recorded in order: the schema was
built, and the external parser was asked to parse the query text. -/
inductive Event
  | schemaBuilt (s : DaskSchema)
  | parseCalled (q : String)
  deriving DecidableEq, Repr

/-- The helper `Context._get_ral(sql)`: build the schema from the current registries,
construct the generator from it, parse, validate, convert and optimize, and
capture the ordered output names exactly when the top-level node is a plain
`SELECT` (`org.apache.calcite.sql.SqlSelect`).  The event trace records the
schema build and the parse call. -/
def Context.get_ral (st : Context) (gen : DaskSchema → Generator) (h : Heap)
    (sql : String) :
    Except GetRalError (RelNode × Option (List String)) × List Event :=
  match st.prepare_schema h with
  | .error e => (.error (.typeMapping e), [])
  | .ok schema =>
    let g := gen schema
    match g.getSqlNode sql with
    | .error e => (.error (.external e), [.schemaBuilt schema, .parseCalled sql])
    | .ok sqlNode =>
      match g.getValidatedNode sqlNode with
      | .error e =>
        (.error (.external e), [.schemaBuilt schema, .parseCalled sql])
      | .ok validatedSqlNode =>
        let rel := g.getOptimizedRelationalAlgebra
          (g.getRelationalAlgebra validatedSqlNode)
        let select_names :=
          if get_java_class sqlNode = "org.apache.calcite.sql.SqlSelect" then
            some sqlNode.selectList
          else
            none
        (.ok (rel, select_names), [.schemaBuilt schema, .parseCalled sql])

/-- The renaming dict built in `sql()`:
`{df_col: df_col if not df_col.startswith("EXPR$") else select_name
  for df_col, select_name in zip(cc.columns, select_names)}`. -/
def renameDict (cols names : List String) : List (String × String) :=
  (cols.zip names).foldl
    (fun d p =>
      dictInsert d p.1 (if p.1.startsWith "EXPR$" then p.2 else p.1))
    []

/-- The body of `Context.sql` up to (but not including) the final
`dc.assign()`: obtain the plan and output names, convert the plan, and, when
output names were captured (Python truthiness: a non-empty list), rename the
`EXPR$`-named columns to the user-intended names. -/
def Context.sql_dc (st : Context) (gen : DaskSchema → Generator)
    (convert : RelNode → Context → DataContainer) (h : Heap) (sql : String) :
    Except GetRalError DataContainer × List Event :=
  match st.get_ral gen h sql with
  | (.error e, evs) => (.error e, evs)
  | (.ok (rel, select_names), evs) =>
    let dc := convert rel st
    match select_names with
    | none => (.ok dc, evs)
    | some names =>
      if names.isEmpty then
        (.ok dc, evs)
      else
        let cc := dc.column_container
        let cc := cc.rename (renameDict cc.columns names)
        (.ok ⟨dc.df, cc⟩, evs)

/-- The outcome of `Context.sql`: the assigned dataframe, or one of the
errors that can escape the call. -/
inductive SqlResult
  | ok (df : DataFrame)
  | schemaError (e : SchemaError)
  | parsingError (e : ParsingException)
  | typeMappingError (e : TypeMappingError)
  deriving DecidableEq, Repr

/-- The method `Context.sql(sql, debug)`: run the pipeline; a parse or validation
failure is re-raised as a single `ParsingException` carrying the query text
and the error's message, chained from the original exception exactly when
`debug` is set; a type-mapping failure propagates as is; on success the final
container is materialized with `assign()`. -/
def Context.sql (st : Context) (gen : DaskSchema → Generator)
    (convert : RelNode → Context → DataContainer) (h : Heap) (sql : String)
    (debug : Bool) : SqlResult × List Event :=
  match st.sql_dc gen convert h sql with
  | (.error (.typeMapping e), evs) => (.typeMappingError e, evs)
  | (.error (.external e), evs) =>
    (.parsingError ⟨sql, e.message, if debug then some e else none⟩, evs)
  | (.ok dc, evs) =>
    match dc.assign h with
    | .ok df => (.ok df, evs)
    | .error e => (.schemaError e, evs)

/-- A public operation on a `Context`: one of the three registrations or a
`sql()` call.  `sql` reads the registries and the heap but mutates neither. -/
inductive Op
  | regTable (r : Ref) (name : String)
  | regFunction (f : Nat) (name : String)
      (parameters : List (String × PyType)) (return_type : PyType)
  | regAggregation (f : Nat) (name : String)
      (parameters : List (String × PyType)) (return_type : PyType)
  | runSql (gen : DaskSchema → Generator)
      (convert : RelNode → Context → DataContainer) (q : String) (d : Bool)

/-- Apply one public operation to the context and heap. -/
def applyOp (p : Context × Heap) (op : Op) : Context × Heap :=
  match op with
  | .regTable r n => p.1.register_dask_table p.2 r n
  | .regFunction f n ps rt => (p.1.register_function f n ps rt, p.2)
  | .regAggregation f n ps rt => (p.1.register_aggregation f n ps rt, p.2)
  | .runSql _ _ _ _ => p

/-- A trivial plan converter for concrete instantiations: every plan becomes
an empty container. -/
def trivConvert : RelNode → Context → DataContainer :=
  fun _ _ => ⟨0, ⟨[]⟩⟩

/-- A concrete external component whose parser always fails. -/
def failingGen : DaskSchema → Generator :=
  fun _ =>
    ⟨fun _ => .error (.sqlParse "encountered unexpected token"),
      fun n => .ok n, fun _ => ⟨0⟩, fun r => r⟩

/-- A concrete external component that parses every query to a non-`SELECT`
top-level node (an `ORDER BY` wrapper). -/
def orderByGen : DaskSchema → Generator :=
  fun _ =>
    ⟨fun _ => .ok ⟨"org.apache.calcite.sql.SqlOrderBy", []⟩,
      fun n => .ok n, fun _ => ⟨0⟩, fun r => r⟩

/-- A concrete external component that parses every query to a plain `SELECT`
node with the two-item projection list `a, b + 1`. -/
def selectGen : DaskSchema → Generator :=
  fun _ =>
    ⟨fun _ => .ok ⟨"org.apache.calcite.sql.SqlSelect", ["a", "b + 1"]⟩,
      fun n => .ok n, fun _ => ⟨0⟩, fun r => r⟩

/-- A concrete plan converter producing one carried-over column `a` and one
synthetic `EXPR$0` column. -/
def exprConvert : RelNode → Context → DataContainer :=
  fun _ _ => ⟨0, ⟨[("a", "a"), ("EXPR$0", "col1")]⟩⟩

/-! ## Lemmas about the Python-dict model -/

theorem dictGet_dictInsert {α β : Type} [DecidableEq α]
    (d : List (α × β)) (k k' : α) (v : β) :
    dictGet (dictInsert d k v) k' = if k = k' then some v else dictGet d k' := by
  induction d with
  | nil => simp [dictInsert, dictGet]
  | cons p rest ih =>
    rcases p with ⟨k₀, v₀⟩
    by_cases h₀ : k₀ = k
    · by_cases hk : k = k'
      · simp [dictInsert, dictGet, h₀, hk]
      · simp [dictInsert, dictGet, h₀, hk]
    · by_cases h₁ : k₀ = k'
      · subst h₁
        have hkk : ¬ k = k₀ := fun he => h₀ he.symm
        simp [dictInsert, dictGet, h₀, hkk]
      · simp [dictInsert, dictGet, h₀, h₁, ih]

theorem dictGet_eq_none_of_not_mem {α β : Type} [DecidableEq α]
    (d : List (α × β)) (k : α) (hk : k ∉ d.map Prod.fst) :
    dictGet d k = none := by
  induction d with
  | nil => rfl
  | cons p rest ih =>
    simp only [List.map_cons, List.mem_cons, not_or] at hk
    have : ¬ p.1 = k := fun he => hk.1 he.symm
    simp [dictGet, this, ih hk.2]

theorem foldl_dictInsert_lookup {α β γ : Type} [DecidableEq α]
    (key : γ → α) (val : γ → β) (ps : List γ) (init : List (α × β)) (k : α)
    (hnd : (ps.map key).Nodup) :
    dictGet (ps.foldl (fun d p => dictInsert d (key p) (val p)) init) k
      = ((dictGet (ps.map fun p => (key p, val p)) k).orElse fun _ =>
          dictGet init k) := by
  induction ps generalizing init with
  | nil => simp [dictGet]
  | cons p rest ih =>
    simp only [List.map_cons, List.nodup_cons] at hnd
    simp only [List.foldl_cons, List.map_cons]
    rw [ih _ hnd.2]
    by_cases h : key p = k
    · have hrest : dictGet (rest.map fun p => (key p, val p)) k = none := by
        apply dictGet_eq_none_of_not_mem
        intro hmem
        apply hnd.1
        rcases List.mem_map.mp hmem with ⟨q, hq, hq2⟩
        rcases List.mem_map.mp hq with ⟨x, hx, rfl⟩
        have : key x = k := hq2 ▸ rfl
        exact List.mem_map.mpr ⟨x, hx, by rw [this, h]⟩
      simp [dictGet, h, hrest, dictGet_dictInsert]
    · simp [dictGet, h, dictGet_dictInsert]

theorem dictGet_self_of_nodup {α β : Type} [DecidableEq α] (ps : List (α × β))
    (hnd : (ps.map Prod.fst).Nodup) (i : Nat) (hi : i < ps.length) :
    dictGet ps (ps[i].1) = some ps[i].2 := by
  induction ps generalizing i with
  | nil => simp at hi
  | cons p rest ih =>
    simp only [List.map_cons, List.nodup_cons] at hnd
    cases i with
    | zero => simp [dictGet]
    | succ j =>
      have hj : j < rest.length := by simpa using hi
      have hne : ¬ p.1 = rest[j].1 := by
        intro he
        exact hnd.1 (he ▸ List.mem_map_of_mem Prod.fst (rest.getElem_mem hj))
      simp only [List.getElem_cons_succ]
      rw [dictGet, if_neg hne]
      exact ih hnd.2 j hj


/-! ## Characterization of the `EXPR$` renaming step -/

theorem renameDict_lookup (cols names : List String)
    (hnd : cols.Nodup) (hlen : cols.length = names.length)
    (i : Nat) (hi : i < cols.length) :
    dictGet (renameDict cols names) cols[i]
      = some (if cols[i].startsWith "EXPR$" then
                names.get ⟨i, hlen ▸ hi⟩
              else cols[i]) := by
  have hle : cols.length ≤ names.length := hlen.le
  have hkeys : (cols.zip names).map Prod.fst = cols :=
    List.map_fst_zip cols names hle
  have hcomp : (Prod.fst ∘ fun p : String × String =>
      (p.1, if p.1.startsWith "EXPR$" then p.2 else p.1)) = Prod.fst :=
    funext fun p => rfl
  have hkeys2 : (((cols.zip names).map fun p : String × String =>
      (p.1, if p.1.startsWith "EXPR$" then p.2 else p.1)).map Prod.fst)
        = cols := by
    rw [List.map_map, hcomp]
    exact hkeys
  have hnd2 : ((((cols.zip names).map fun p : String × String =>
      (p.1, if p.1.startsWith "EXPR$" then p.2 else p.1)).map Prod.fst)).Nodup := by
    rw [hkeys2]
    exact hnd
  have hndz : ((cols.zip names).map Prod.fst).Nodup := by
    rw [hkeys]
    exact hnd
  have hips : i < ((cols.zip names).map fun p : String × String =>
      (p.1, if p.1.startsWith "EXPR$" then p.2 else p.1)).length := by
    simp only [List.length_map, List.length_zip]
    omega
  have hself := dictGet_self_of_nodup _ hnd2 i hips
  simp only [List.getElem_map, List.getElem_zip] at hself
  unfold renameDict
  rw [foldl_dictInsert_lookup Prod.fst
    (fun p : String × String => if p.1.startsWith "EXPR$" then p.2 else p.1)
    (cols.zip names) [] _ hndz]
  rw [hself]
  rfl

theorem rename_renameDict_columns (cc : ColumnContainer) (names : List String)
    (hnd : cc.columns.Nodup) (hlen : cc.columns.length = names.length) :
    (cc.rename (renameDict cc.columns names)).columns
      = List.zipWith (fun c n => if c.startsWith "EXPR$" then n else c)
          cc.columns names := by
  have hlen' : cc.cols.length = names.length := by
    simpa [ColumnContainer.columns] using hlen
  apply List.ext_getElem
  · simp only [ColumnContainer.rename, ColumnContainer.columns, List.length_map,
      List.length_zipWith]
    omega
  · intro i h₁ h₂
    have hi : i < cc.columns.length := by
      simpa [ColumnContainer.rename, ColumnContainer.columns] using h₁
    have hlook := renameDict_lookup cc.columns names hnd hlen i hi
    simp only [ColumnContainer.columns, List.getElem_map] at hlook
    simp only [ColumnContainer.rename, ColumnContainer.columns, List.getElem_map,
      List.getElem_zipWith]
    simp only [hlook, Option.getD_some, List.get_eq_getElem]

/-! ## Claim theorems: registries -/

/-- C4: `register_dask_table` stores its entry under the case-folded key
`lower(n)`, and `register_function` / `register_aggregation` store theirs
under `lower(n)` in the function registry; any entry already present under
that key is silently replaced wholesale by the new one (the lookup after
registration returns exactly the fresh entry for every prior state). -/
theorem register_stores_casefolded_and_replaces
    (st : Context) (h : Heap) (r : Ref) (n : String) (f g : Nat)
    (ps qs : List (String × PyType)) (rt rt' : PyType) :
    dictGet (st.register_dask_table h r n).1.tables (pyLower n)
        = some ⟨(h.alloc (h.get r)).2, ColumnContainer.ofColumns (h.get r).columns⟩
    ∧ dictGet (st.register_function f n ps rt).functions (pyLower n)
        = some ⟨f, ps, rt, false⟩
    ∧ dictGet (st.register_aggregation g n qs rt').functions (pyLower n)
        = some ⟨g, qs, rt', true⟩ := by
  refine ⟨?_, ?_, ?_⟩ <;>
    simp [Context.register_dask_table, Context.register_function,
      Context.register_aggregation, dictGet_dictInsert]

/-- C5: `register_function` and `register_aggregation` write to the same
single registry `functions` under `lower(n)`, so either kind of registration
overwrites an existing entry of the other kind; the stored entry's
is-aggregation flag is `false` after `register_function` and `true` after
`register_aggregation`. -/
theorem function_registry_shared_and_flagged
    (st : Context) (n : String) (f g : Nat)
    (ps qs : List (String × PyType)) (rt rt' : PyType) :
    (st.register_function f n ps rt).functions
        = dictInsert st.functions (pyLower n) ⟨f, ps, rt, false⟩
    ∧ (st.register_aggregation g n qs rt').functions
        = dictInsert st.functions (pyLower n) ⟨g, qs, rt', true⟩
    ∧ dictGet
        ((st.register_aggregation g n qs rt').register_function f n ps rt).functions
        (pyLower n) = some ⟨f, ps, rt, false⟩
    ∧ dictGet
        ((st.register_function f n ps rt).register_aggregation g n qs rt').functions
        (pyLower n) = some ⟨g, qs, rt', true⟩
    ∧ (dictGet (st.register_function f n ps rt).functions (pyLower n)).map
        FunctionDescription.aggregation = some false
    ∧ (dictGet (st.register_aggregation g n qs rt').functions (pyLower n)).map
        FunctionDescription.aggregation = some true := by
  refine ⟨rfl, rfl, ?_, ?_, ?_, ?_⟩ <;>
    simp [Context.register_function, Context.register_aggregation,
      dictGet_dictInsert]

/-- C10: each registration touches only its own registry entry:
`register_dask_table` changes only the table entry at `lower(n)` and leaves
the function registry and the aggregations map untouched; `register_function`
and `register_aggregation` change only the function entry at `lower(n)` and
leave the table registry, the aggregations map, and every other function
entry untouched. -/
theorem registration_frame_conditions
    (st : Context) (h : Heap) (r : Ref) (n : String) (f : Nat)
    (ps : List (String × PyType)) (rt : PyType) (m : String) :
    (m ≠ (pyLower n) →
      dictGet (st.register_dask_table h r n).1.tables m = dictGet st.tables m
      ∧ dictGet (st.register_function f n ps rt).functions m
          = dictGet st.functions m
      ∧ dictGet (st.register_aggregation f n ps rt).functions m
          = dictGet st.functions m)
    ∧ (st.register_dask_table h r n).1.functions = st.functions
    ∧ (st.register_dask_table h r n).1.aggregations = st.aggregations
    ∧ (st.register_function f n ps rt).tables = st.tables
    ∧ (st.register_function f n ps rt).aggregations = st.aggregations
    ∧ (st.register_aggregation f n ps rt).tables = st.tables
    ∧ (st.register_aggregation f n ps rt).aggregations = st.aggregations := by
  refine ⟨fun hm => ⟨?_, ?_, ?_⟩, rfl, rfl, rfl, rfl, rfl, rfl⟩ <;>
    simp [Context.register_dask_table, Context.register_function,
      Context.register_aggregation, dictGet_dictInsert, Ne.symm hm]

/-- Witness for C10 at a concrete state: registering table `"T"` over an
empty context does not disturb the (absent) table entry `"s"`. -/
theorem registration_frame_conditions_witness :
    dictGet (Context.init.register_dask_table ⟨[], 0⟩ 0 "T").1.tables "s"
        = dictGet Context.init.tables "s"
      ∧ dictGet (Context.init.register_function 7 "T" [] .int64).functions "s"
          = dictGet Context.init.functions "s"
      ∧ dictGet (Context.init.register_aggregation 7 "T" [] .int64).functions "s"
          = dictGet Context.init.functions "s" :=
  (registration_frame_conditions Context.init ⟨[], 0⟩ 0 "T" 7 [] .int64 "s").1
    (by decide)

theorem applyOp_aggregations (p : Context × Heap) (op : Op) :
    (applyOp p op).1.aggregations = p.1.aggregations := by
  cases op <;> rfl

/-- C8: `aggregations` is initialized empty in `__init__` and no public
operation ever writes it (`register_aggregation` writes the shared
`functions` registry instead), so after any sequence of registrations and
`sql` calls the aggregations map is still empty. -/
theorem aggregations_map_stays_empty (ops : List Op) (h₀ : Heap) :
    Context.init.aggregations = []
    ∧ (ops.foldl applyOp (Context.init, h₀)).1.aggregations = [] := by
  refine ⟨rfl, ?_⟩
  suffices hgen : ∀ (p : Context × Heap), (ops.foldl applyOp p).1.aggregations
      = p.1.aggregations by
    rw [hgen]
    rfl
  induction ops with
  | nil => intro p; rfl
  | cons op rest ih =>
    intro p
    rw [List.foldl_cons, ih, applyOp_aggregations]

/-- C9: `register_dask_table` stores, under `lower(n)`, a Data Container
whose dataframe is a fresh copy of the caller's dataframe taken at
registration time, paired with a Column Container built from its columns;
an in-place mutation of the caller's object after registration leaves the
registered copy holding the registration-time value. -/
theorem register_dask_table_copies
    (st : Context) (h : Heap) (r : Ref) (n : String) (v : DataFrame)
    (hr : r < h.next) :
    ∃ dc : DataContainer,
      dictGet (st.register_dask_table h r n).1.tables (pyLower n) = some dc
      ∧ dc.column_container = ColumnContainer.ofColumns (h.get r).columns
      ∧ ((st.register_dask_table h r n).2.write r v).get dc.df = h.get r := by
  refine ⟨⟨h.next, ColumnContainer.ofColumns (h.get r).columns⟩, ?_, rfl, ?_⟩
  · simp [Context.register_dask_table, Heap.alloc, dictGet_dictInsert]
  · have hne : ¬ r = h.next := Nat.ne_of_lt hr
    simp [Context.register_dask_table, Heap.alloc, Heap.write, Heap.get,
      dictGet_dictInsert, hne]

/-- Witness for C9: a one-cell heap holding a one-column dataframe; after
registration, overwriting the caller's cell with an empty dataframe leaves
the registered copy unchanged. -/
theorem register_dask_table_copies_witness :
    ∃ dc : DataContainer,
      dictGet (Context.init.register_dask_table
          ⟨[(0, ⟨[⟨"a", .int64, [1]⟩]⟩)], 1⟩ 0 "T").1.tables (pyLower "T")
        = some dc
      ∧ dc.column_container
          = ColumnContainer.ofColumns
              ((Heap.get ⟨[(0, ⟨[⟨"a", .int64, [1]⟩]⟩)], 1⟩ 0).columns)
      ∧ ((Context.init.register_dask_table
            ⟨[(0, ⟨[⟨"a", .int64, [1]⟩]⟩)], 1⟩ 0 "T").2.write 0 ⟨[]⟩).get dc.df
          = Heap.get ⟨[(0, ⟨[⟨"a", .int64, [1]⟩]⟩)], 1⟩ 0 :=
  register_dask_table_copies Context.init ⟨[(0, ⟨[⟨"a", .int64, [1]⟩]⟩)], 1⟩ 0
    "T" ⟨[]⟩ (by decide)

/-! ## Claim theorems: the sql() pipeline -/

/-- C2: if the external parser/validator fails during `sql(q, debug)`, the
call raises exactly one `ParsingException` carrying the original query text
`q` and the human-readable message of the underlying error, and the
underlying exception is chained as the cause exactly when `debug` is true. -/
theorem sql_wraps_parse_errors
    (st : Context) (gen : DaskSchema → Generator)
    (convert : RelNode → Context → DataContainer) (h : Heap) (q : String)
    (d : Bool) (e : ExternalError)
    (hfail : (st.get_ral gen h q).1 = .error (.external e)) :
    ∃ pe : ParsingException,
      (st.sql gen convert h q d).1 = .parsingError pe
      ∧ pe.sql = q
      ∧ pe.message = e.message
      ∧ (pe.cause = some e ↔ d = true)
      ∧ (d = false → pe.cause = none) := by
  rcases hg : st.get_ral gen h q with ⟨res, evs⟩
  have hres : res = .error (.external e) := by
    rw [hg] at hfail
    exact hfail
  subst hres
  refine ⟨⟨q, e.message, if d then some e else none⟩, ?_, rfl, rfl, ?_, ?_⟩
  · simp [Context.sql, Context.sql_dc, hg]
  · cases d <;> simp
  · intro hd
    subst hd
    rfl

/-- Witness for C2: the always-failing parser on an empty context, with
debug set, yields a `ParsingException` with the query, the message, and the
chained cause. -/
theorem sql_wraps_parse_errors_witness :
    ∃ pe : ParsingException,
      (Context.init.sql failingGen trivConvert ⟨[], 0⟩ "SELEKT 1" true).1
        = .parsingError pe
      ∧ pe.sql = "SELEKT 1"
      ∧ pe.message = (ExternalError.sqlParse "encountered unexpected token").message
      ∧ (pe.cause = some (.sqlParse "encountered unexpected token") ↔ true = true)
      ∧ (true = false → pe.cause = none) :=
  sql_wraps_parse_errors Context.init failingGen trivConvert ⟨[], 0⟩ "SELEKT 1"
    true (.sqlParse "encountered unexpected token") rfl

/-- C3: `_get_ral` returns a non-`None` ordered output-name list exactly when
the parsed top-level node is a plain `SELECT`
(`org.apache.calcite.sql.SqlSelect`); for any other top-level shape the list
is `None` and `sql()` skips the renaming step, returning the converted
container unchanged. -/
theorem get_ral_names_iff_plain_select
    (st : Context) (gen : DaskSchema → Generator) (h : Heap) (q : String)
    (schema : DaskSchema) (node vnode : SqlNode)
    (hschema : st.prepare_schema h = .ok schema)
    (hparse : (gen schema).getSqlNode q = .ok node)
    (hvalid : (gen schema).getValidatedNode node = .ok vnode) :
    ∃ rel sel, (st.get_ral gen h q).1 = .ok (rel, sel)
      ∧ (sel ≠ none ↔ get_java_class node = "org.apache.calcite.sql.SqlSelect")
      ∧ (sel = none → ∀ convert,
          (st.sql_dc gen convert h q).1 = .ok (convert rel st)) := by
  refine ⟨(gen schema).getOptimizedRelationalAlgebra
      ((gen schema).getRelationalAlgebra vnode),
    if get_java_class node = "org.apache.calcite.sql.SqlSelect" then
      some node.selectList
    else none, ?_, ?_, ?_⟩
  · simp [Context.get_ral, hschema, hparse, hvalid]
  · by_cases hc : get_java_class node = "org.apache.calcite.sql.SqlSelect" <;>
      simp [hc]
  · intro hnone convert
    by_cases hc : get_java_class node = "org.apache.calcite.sql.SqlSelect"
    · simp [hc] at hnone
    · simp [Context.sql_dc, Context.get_ral, hschema, hparse, hvalid, hc]

/-- Witness for C3: a parser yielding an `ORDER BY` top-level node gives no
name list and an unrenamed result. -/
theorem get_ral_names_iff_plain_select_witness :
    ∃ rel sel,
      (Context.init.get_ral orderByGen ⟨[], 0⟩ "SELECT 1 ORDER BY 1").1
        = .ok (rel, sel)
      ∧ (sel ≠ none ↔
          get_java_class ⟨"org.apache.calcite.sql.SqlOrderBy", []⟩
            = "org.apache.calcite.sql.SqlSelect")
      ∧ (sel = none → ∀ convert,
          (Context.init.sql_dc orderByGen convert ⟨[], 0⟩
              "SELECT 1 ORDER BY 1").1
            = .ok (convert rel Context.init)) :=
  get_ral_names_iff_plain_select Context.init orderByGen ⟨[], 0⟩
    "SELECT 1 ORDER BY 1" ⟨"schema", [], []⟩
    ⟨"org.apache.calcite.sql.SqlOrderBy", []⟩
    ⟨"org.apache.calcite.sql.SqlOrderBy", []⟩ rfl rfl rfl

/-- C1: when `sql()` captured an ordered output-name list, the container
handed to the final `assign()` has every synthetic `EXPR$`-prefixed Logical
Name replaced by the user-intended name at the same position and every
other Logical Name kept unchanged; `sql()`'s result is `assign()` of exactly
that renamed container.  (Name-uniqueness of the container's Logical Names
is the Column Container invariant; equal lengths hold since the projection
list determines the output columns.) -/
theorem sql_humanizes_expr_names
    (st : Context) (gen : DaskSchema → Generator)
    (convert : RelNode → Context → DataContainer) (h : Heap) (q : String)
    (rel : RelNode) (names : List String)
    (hral : (st.get_ral gen h q).1 = .ok (rel, some names))
    (hnd : (convert rel st).column_container.columns.Nodup)
    (hlen : (convert rel st).column_container.columns.length = names.length) :
    ∃ dc : DataContainer, (st.sql_dc gen convert h q).1 = .ok dc
      ∧ dc.df = (convert rel st).df
      ∧ dc.column_container.columns
          = List.zipWith (fun c nm => if c.startsWith "EXPR$" then nm else c)
              (convert rel st).column_container.columns names
      ∧ ∀ d : Bool, (st.sql gen convert h q d).1
          = (match dc.assign h with
             | .ok df => SqlResult.ok df
             | .error e => SqlResult.schemaError e) := by
  rcases hg : st.get_ral gen h q with ⟨res, evs⟩
  have hres : res = .ok (rel, some names) := by
    rw [hg] at hral
    exact hral
  subst hres
  by_cases hempty : names.isEmpty
  · have hn : names = [] := by
      cases names with
      | nil => rfl
      | cons a l => simp [List.isEmpty] at hempty
    have hcols : (convert rel st).column_container.columns = [] := by
      apply List.eq_nil_of_length_eq_zero
      rw [hlen, hn]
      rfl
    refine ⟨convert rel st, ?_, rfl, ?_, ?_⟩
    · simp [Context.sql_dc, hg, hempty]
    · rw [hcols, hn]
      rfl
    · intro d
      simp [Context.sql, Context.sql_dc, hg, hempty]
      cases hx : (convert rel st).assign h <;> simp [hx]
  · refine ⟨⟨(convert rel st).df,
        (convert rel st).column_container.rename
          (renameDict (convert rel st).column_container.columns names)⟩,
      ?_, rfl, ?_, ?_⟩
    · simp [Context.sql_dc, hg, hempty]
    · exact rename_renameDict_columns _ names hnd hlen
    · intro d
      simp [Context.sql, Context.sql_dc, hg, hempty]
      cases hx : DataContainer.assign ⟨(convert rel st).df,
        (convert rel st).column_container.rename
          (renameDict (convert rel st).column_container.columns names)⟩ h <;>
        simp [hx]

/-- Witness for C1: a two-column result `a`, `EXPR$0` with captured names
`a`, `b + 1` renames only the synthetic column. -/
theorem sql_humanizes_expr_names_witness :
    ∃ dc : DataContainer,
      (Context.init.sql_dc selectGen exprConvert ⟨[], 0⟩
          "SELECT a, b + 1 FROM t").1 = .ok dc
      ∧ dc.df = (exprConvert ⟨0⟩ Context.init).df
      ∧ dc.column_container.columns
          = List.zipWith (fun c nm => if c.startsWith "EXPR$" then nm else c)
              (exprConvert ⟨0⟩ Context.init).column_container.columns
              ["a", "b + 1"]
      ∧ ∀ d : Bool,
          (Context.init.sql selectGen exprConvert ⟨[], 0⟩
              "SELECT a, b + 1 FROM t" d).1
            = (match dc.assign ⟨[], 0⟩ with
               | .ok df => SqlResult.ok df
               | .error e => SqlResult.schemaError e) :=
  sql_humanizes_expr_names Context.init selectGen exprConvert ⟨[], 0⟩
    "SELECT a, b + 1 FROM t" ⟨0⟩ ["a", "b + 1"] rfl (by decide) (by decide)

/-! ## Lemmas: schema preparation and the event trace -/

theorem mapM_ok_forall₂ {ε α β : Type} (f : α → Except ε β) :
    ∀ (xs : List α) (ys : List β), xs.mapM f = .ok ys →
      List.Forall₂ (fun x y => f x = .ok y) xs ys := by
  intro xs
  induction xs with
  | nil =>
    intro ys hy
    rw [List.mapM_nil] at hy
    cases hy
    exact List.Forall₂.nil
  | cons x xs ih =>
    intro ys hy
    rw [List.mapM_cons] at hy
    cases hfx : f x with
    | error e =>
      rw [hfx] at hy
      simp [Bind.bind, Except.bind] at hy
    | ok y =>
      rw [hfx] at hy
      cases hxs : xs.mapM f with
      | error e =>
        rw [hxs] at hy
        simp [Bind.bind, Except.bind] at hy
      | ok ys' =>
        rw [hxs] at hy
        simp only [Bind.bind, Except.bind, pure, Except.pure, Except.ok.injEq] at hy
        subst hy
        exact List.Forall₂.cons hfx (ih ys' hxs)

theorem forall₂_exists_of_mem_left {α β : Type} {R : α → β → Prop} :
    ∀ {xs : List α} {ys : List β}, List.Forall₂ R xs ys →
      ∀ {x : α}, x ∈ xs → ∃ y, y ∈ ys ∧ R x y := by
  intro xs ys hf
  induction hf with
  | nil => intro x hx; cases hx
  | cons hR hrest ih =>
    intro x hx
    rcases List.mem_cons.mp hx with rfl | hx'
    · exact ⟨_, List.mem_cons_self _ _, hR⟩
    · rcases ih hx' with ⟨y, hy, hRy⟩
      exact ⟨y, List.mem_cons_of_mem _ hy, hRy⟩

theorem map_entry_ok_iff (nm : String) (ty : PyType) (tc : String × SqlType) :
    ((do
        let s ← python_to_sql_type ty
        pure (nm, s)) : Except TypeMappingError (String × SqlType)) = .ok tc
      ↔ tc.1 = nm ∧ python_to_sql_type ty = .ok tc.2 := by
  cases hp : python_to_sql_type ty with
  | error e => simp [Bind.bind, Except.bind]
  | ok sq =>
    simp only [Bind.bind, Except.bind, pure, Except.pure, Except.ok.injEq]
    constructor
    · intro he
      rw [← he]
      exact ⟨rfl, rfl⟩
    · intro ⟨h1, h2⟩
      cases h2
      rcases tc with ⟨a, b⟩
      cases h1
      rfl

theorem prepare_schema_ok_parts (st : Context) (h : Heap) (s : DaskSchema)
    (hs : st.prepare_schema h = .ok s) :
    ∃ ts fs, st.tables.mapM (tableRepr h) = .ok ts
      ∧ st.functions.mapM functionRepr = .ok fs
      ∧ s = ⟨"schema", ts, fs⟩ := by
  unfold Context.prepare_schema at hs
  cases hts : st.tables.mapM (tableRepr h) with
  | error e =>
    rw [hts] at hs
    simp [Bind.bind, Except.bind] at hs
  | ok ts =>
    rw [hts] at hs
    cases hfs : st.functions.mapM functionRepr with
    | error e =>
      rw [hfs] at hs
      simp [Bind.bind, Except.bind] at hs
    | ok fs =>
      rw [hfs] at hs
      simp only [Bind.bind, Except.bind, pure, Except.pure, Except.ok.injEq] at hs
      exact ⟨ts, fs, rfl, rfl, hs.symm⟩

theorem tableRepr_ok_parts (h : Heap) (nt : String × DataContainer)
    (t : DaskTableRepr) (ht : tableRepr h nt = .ok t) :
    t.name = nt.1
    ∧ List.Forall₂ (fun (c : Column) (tc : String × SqlType) =>
        tc.1 = c.name ∧ python_to_sql_type c.dtype = .ok tc.2)
      (h.get nt.2.df).cols t.columns := by
  unfold tableRepr at ht
  dsimp only at ht
  cases hcols : (h.get nt.2.df).cols.mapM (fun c => do
      let sql_data_type ← python_to_sql_type c.dtype
      pure (c.name, sql_data_type)) with
  | error e =>
    rw [hcols] at ht
    simp [Bind.bind, Except.bind] at ht
  | ok columns =>
    rw [hcols] at ht
    simp only [Bind.bind, Except.bind, pure, Except.pure, Except.ok.injEq] at ht
    subst ht
    refine ⟨rfl, ?_⟩
    exact (mapM_ok_forall₂ _ _ _ hcols).imp
      (fun c tc hctc => (map_entry_ok_iff c.name c.dtype tc).mp hctc)

theorem functionRepr_ok_parts (nf : String × FunctionDescription)
    (fr : DaskFunctionRepr) (hf : functionRepr nf = .ok fr) :
    fr.name = nf.1
    ∧ fr.isAggregate = nf.2.aggregation
    ∧ python_to_sql_type nf.2.return_type = .ok fr.returnType
    ∧ List.Forall₂ (fun (pp : String × PyType) (sp : String × SqlType) =>
        sp.1 = pp.1 ∧ python_to_sql_type pp.2 = .ok sp.2)
      nf.2.parameters fr.parameters := by
  unfold functionRepr at hf
  cases hret : python_to_sql_type nf.2.return_type with
  | error e =>
    rw [hret] at hf
    simp [Bind.bind, Except.bind] at hf
  | ok ret =>
    rw [hret] at hf
    cases hps : Context.add_parameters_from_description nf.2.parameters with
    | error e =>
      rw [hps] at hf
      simp [Bind.bind, Except.bind] at hf
    | ok params =>
      rw [hps] at hf
      simp only [Bind.bind, Except.bind, pure, Except.pure, Except.ok.injEq] at hf
      subst hf
      refine ⟨rfl, rfl, ?_, ?_⟩
      · rfl
      unfold Context.add_parameters_from_description at hps
      exact (mapM_ok_forall₂ _ _ _ hps).imp
        (fun pp sp hpsp => (map_entry_ok_iff pp.1 pp.2 sp).mp hpsp)

theorem get_ral_trace_schemaBuilt (st : Context) (gen : DaskSchema → Generator)
    (h : Heap) (q : String) (s : DaskSchema)
    (hs : st.prepare_schema h = .ok s) :
    Event.schemaBuilt s ∈ (st.get_ral gen h q).2 := by
  unfold Context.get_ral
  rw [hs]
  cases hx : (gen s).getSqlNode q with
  | error e => simp [hx]
  | ok node =>
    cases hy : (gen s).getValidatedNode node with
    | error e => simp [hx, hy]
    | ok vnode => simp [hx, hy]

theorem sql_trace_eq (st : Context) (gen : DaskSchema → Generator)
    (convert : RelNode → Context → DataContainer) (h : Heap) (q : String)
    (d : Bool) :
    (st.sql gen convert h q d).2 = (st.get_ral gen h q).2 := by
  have hdc : (st.sql_dc gen convert h q).2 = (st.get_ral gen h q).2 := by
    unfold Context.sql_dc
    rcases hg : st.get_ral gen h q with ⟨res, evs⟩
    rcases res with e | ⟨rel, sel⟩
    · rfl
    · rcases sel with _ | names
      · rfl
      · by_cases hempty : names.isEmpty <;> simp [hempty]
  unfold Context.sql
  rcases hd : st.sql_dc gen convert h q with ⟨res, evs⟩
  rw [hd] at hdc
  rcases res with e | dc
  · rcases e with e | e <;> simpa using hdc
  · cases hx : dc.assign h <;> simpa [hx] using hdc

/-- C6: every `sql()` call builds the schema freshly from the current
registries (the built schema appears in the call's trace and is determined
by the state at call time, so registry changes between two calls show up in
the second call's schema): every registered table contributes its name and
all its column/type pairs in order, and every registered function
contributes its name, parameters and return type with the scalar/aggregate
split taken from its flag. -/
theorem sql_builds_schema_fresh
    (st : Context) (gen : DaskSchema → Generator)
    (convert : RelNode → Context → DataContainer) (h : Heap) (q : String)
    (d : Bool) (s : DaskSchema)
    (hs : st.prepare_schema h = .ok s) :
    Event.schemaBuilt s ∈ (st.sql gen convert h q d).2
    ∧ List.Forall₂ (fun (nt : String × DataContainer) (t : DaskTableRepr) =>
        t.name = nt.1
        ∧ List.Forall₂ (fun (c : Column) (tc : String × SqlType) =>
            tc.1 = c.name ∧ python_to_sql_type c.dtype = .ok tc.2)
          (h.get nt.2.df).cols t.columns)
      st.tables s.tables
    ∧ List.Forall₂ (fun (nf : String × FunctionDescription)
          (fr : DaskFunctionRepr) =>
        fr.name = nf.1
        ∧ fr.isAggregate = nf.2.aggregation
        ∧ python_to_sql_type nf.2.return_type = .ok fr.returnType
        ∧ List.Forall₂ (fun (pp : String × PyType) (sp : String × SqlType) =>
            sp.1 = pp.1 ∧ python_to_sql_type pp.2 = .ok sp.2)
          nf.2.parameters fr.parameters)
      st.functions s.functions := by
  obtain ⟨ts, fs, hts, hfs, rfl⟩ := prepare_schema_ok_parts st h s hs
  refine ⟨?_, ?_, ?_⟩
  · rw [sql_trace_eq]
    exact get_ral_trace_schemaBuilt st gen h q _ hs
  · exact (mapM_ok_forall₂ _ _ _ hts).imp
      (fun nt t hnt => tableRepr_ok_parts h nt t hnt)
  · exact (mapM_ok_forall₂ _ _ _ hfs).imp
      (fun nf fr hnf => functionRepr_ok_parts nf fr hnf)

/-- Witness for C6: a context with one table and one scalar function; the
schema built by `sql` reflects both. -/
theorem sql_builds_schema_fresh_witness :
    Event.schemaBuilt ⟨"schema", [⟨"t", [("x", .BIGINT)]⟩],
        [⟨"f", .DOUBLE, [("a", .DOUBLE)], false⟩]⟩
      ∈ ((⟨[("t", ⟨0, ⟨[("x", "x")]⟩⟩)],
            [("f", ⟨7, [("a", .float64)], .float64, false⟩)], []⟩ : Context).sql
          selectGen trivConvert ⟨[(0, ⟨[⟨"x", .int64, [1]⟩]⟩)], 1⟩
          "SELECT x FROM t" false).2
    ∧ List.Forall₂ (fun (nt : String × DataContainer) (t : DaskTableRepr) =>
        t.name = nt.1
        ∧ List.Forall₂ (fun (c : Column) (tc : String × SqlType) =>
            tc.1 = c.name ∧ python_to_sql_type c.dtype = .ok tc.2)
          ((⟨[(0, ⟨[⟨"x", .int64, [1]⟩]⟩)], 1⟩ : Heap).get nt.2.df).cols
          t.columns)
      [("t", ⟨0, ⟨[("x", "x")]⟩⟩)] [⟨"t", [("x", .BIGINT)]⟩]
    ∧ List.Forall₂ (fun (nf : String × FunctionDescription)
          (fr : DaskFunctionRepr) =>
        fr.name = nf.1
        ∧ fr.isAggregate = nf.2.aggregation
        ∧ python_to_sql_type nf.2.return_type = .ok fr.returnType
        ∧ List.Forall₂ (fun (pp : String × PyType) (sp : String × SqlType) =>
            sp.1 = pp.1 ∧ python_to_sql_type pp.2 = .ok sp.2)
          nf.2.parameters fr.parameters)
      [("f", ⟨7, [("a", .float64)], .float64, false⟩)]
      [⟨"f", .DOUBLE, [("a", .DOUBLE)], false⟩] :=
  sql_builds_schema_fresh
    ⟨[("t", ⟨0, ⟨[("x", "x")]⟩⟩)],
      [("f", ⟨7, [("a", .float64)], .float64, false⟩)], []⟩
    selectGen trivConvert ⟨[(0, ⟨[⟨"x", .int64, [1]⟩]⟩)], 1⟩
    "SELECT x FROM t" false
    ⟨"schema", [⟨"t", [("x", .BIGINT)]⟩],
      [⟨"f", .DOUBLE, [("a", .DOUBLE)], false⟩]⟩ rfl

/-- C7: if any registered table column type, function return type or
function parameter type has no SQL mapping, `sql()` fails with the
type-mapping error raised inside `_prepare_schema`, and the external parser
is never asked to parse the query (the trace is empty: no parse event). -/
theorem unmappable_type_fails_before_parse
    (st : Context) (gen : DaskSchema → Generator)
    (convert : RelNode → Context → DataContainer) (h : Heap) (q : String)
    (d : Bool)
    (hbad :
      (∃ p ∈ st.tables, ∃ c ∈ (h.get p.2.df).cols,
        ∀ sq, python_to_sql_type c.dtype ≠ .ok sq)
      ∨ (∃ p ∈ st.functions,
          (∀ sq, python_to_sql_type p.2.return_type ≠ .ok sq)
          ∨ ∃ pp ∈ p.2.parameters,
              ∀ sq, python_to_sql_type pp.2 ≠ .ok sq)) :
    (∃ e, (st.sql gen convert h q d).1 = .typeMappingError e)
    ∧ ∀ q', Event.parseCalled q' ∉ (st.sql gen convert h q d).2 := by
  have hprep : ∃ e, st.prepare_schema h = .error e := by
    cases hp : st.prepare_schema h with
    | error e => exact ⟨e, rfl⟩
    | ok s =>
      exfalso
      obtain ⟨ts, fs, hts, hfs, _⟩ := prepare_schema_ok_parts st h s hp
      rcases hbad with ⟨p, hpmem, c, hcmem, hbadc⟩ | ⟨p, hpmem, hbadf⟩
      · obtain ⟨t, _, ht⟩ :=
          forall₂_exists_of_mem_left (mapM_ok_forall₂ _ _ _ hts) hpmem
        obtain ⟨_, hcols⟩ := tableRepr_ok_parts h p t ht
        obtain ⟨tc, _, _, hc2⟩ := forall₂_exists_of_mem_left hcols hcmem
        exact hbadc tc.2 hc2
      · obtain ⟨fr, _, hf⟩ :=
          forall₂_exists_of_mem_left (mapM_ok_forall₂ _ _ _ hfs) hpmem
        obtain ⟨_, _, hret, hparams⟩ := functionRepr_ok_parts p fr hf
        rcases hbadf with hbadret | ⟨pp, hppmem, hbadpp⟩
        · exact hbadret fr.returnType hret
        · obtain ⟨sp, _, _, hp2⟩ := forall₂_exists_of_mem_left hparams hppmem
          exact hbadpp sp.2 hp2
  obtain ⟨e, he⟩ := hprep
  have hral : st.get_ral gen h q = (.error (.typeMapping e), []) := by
    unfold Context.get_ral
    rw [he]
  refine ⟨⟨e, ?_⟩, ?_⟩
  · simp [Context.sql, Context.sql_dc, hral]
  · intro q'
    have htr := sql_trace_eq st gen convert h q d
    rw [hral] at htr
    rw [htr]
    simp

/-- Witness for C7: a table whose only column has the unmappable `object`
dtype makes `sql` fail before parsing. -/
theorem unmappable_type_fails_before_parse_witness :
    (∃ e, ((⟨[("t", ⟨0, ⟨[("x", "x")]⟩⟩)], [], []⟩ : Context).sql selectGen
        trivConvert ⟨[(0, ⟨[⟨"x", .objectAny, []⟩]⟩)], 1⟩
        "SELECT x FROM t" false).1 = .typeMappingError e)
    ∧ ∀ q', Event.parseCalled q'
        ∉ ((⟨[("t", ⟨0, ⟨[("x", "x")]⟩⟩)], [], []⟩ : Context).sql selectGen
            trivConvert ⟨[(0, ⟨[⟨"x", .objectAny, []⟩]⟩)], 1⟩
            "SELECT x FROM t" false).2 :=
  unmappable_type_fails_before_parse
    ⟨[("t", ⟨0, ⟨[("x", "x")]⟩⟩)], [], []⟩ selectGen trivConvert
    ⟨[(0, ⟨[⟨"x", .objectAny, []⟩]⟩)], 1⟩ "SELECT x FROM t" false
    (Or.inl ⟨("t", ⟨0, ⟨[("x", "x")]⟩⟩), by decide,
      ⟨"x", .objectAny, []⟩, by decide, fun sq hsq => Except.noConfusion hsq⟩)
